import Mathlib

/-!
Verification development for the schema-builder core of this repository:
the Descriptor Normalizer and Preview Code Generator
(packages/ui/src/ui-component/zodschema/ZodSchemaBuilder.jsx) and the
Schema Compiler
(packages/components/nodes/outputparsers/StructuredOutputParserAdvancedUI/StructuredOutputParserAdvancedUI.ts).

The embedding translates the two schema-conversion routines and the
normalizer into Lean: descriptors become typed records with `Option`
fields for attributes that may be absent in the loosely-typed source
objects, JavaScript truthiness tests become explicit checks, the zod
validator objects built by the compiler become a `ZodSchema` syntax tree
with an executable `validateAt` semantics modelled on zod v3, and the
host `RegExp` constructor (which throws on a syntactically invalid
pattern) becomes a total parser `jsRegexParse` returning `Option`.
JavaScript numbers are modelled as integers (every numeric value the UI
produces is an integer via parseInt); recursion through the flat
parent-reference field list is bounded by an explicit fuel argument,
standing for the host call stack.
-/

/-- A JSON-like runtime value, modelling the JavaScript values that
instances and `literal` constraint values range over. -/
inductive JVal where
  | vNull : JVal
  | vBool : Bool → JVal
  | vNum : Int → JVal
  | vStr : String → JVal
  | vDate : Int → JVal
  | vArr : List JVal → JVal
  | vObj : List (String × JVal) → JVal

/-- The name JavaScript / zod reports for a value's type. -/
def JVal.typeName : JVal → String
  | .vNull => "null"
  | .vBool _ => "boolean"
  | .vNum _ => "number"
  | .vStr _ => "string"
  | .vDate _ => "date"
  | .vArr _ => "array"
  | .vObj _ => "object"

/-- JavaScript strict equality `===` as used by `z.literal`: primitives
compare by value; arrays, objects and dates compare by reference, and a
freshly parsed instance value is never reference-equal to the literal
stored in the schema, so those cases are `false`. -/
def jvalBeq : JVal → JVal → Bool
  | .vNull, .vNull => true
  | .vBool a, .vBool b => a == b
  | .vNum a, .vNum b => a == b
  | .vStr a, .vStr b => a == b
  | _, _ => false

/-- JavaScript string coercion as used by template interpolation in the
preview generator. Nested arrays are approximated one level deep (the
generator never receives them from the UI). -/
def jsPrimToString : JVal → String
  | .vNull => "null"
  | .vBool b => if b then "true" else "false"
  | .vNum n => toString n
  | .vStr s => s
  | .vDate t => toString t
  | .vArr _ => ""
  | .vObj _ => "[object Object]"

/-- JavaScript `${value}` template coercion. -/
def jsToString : JVal → String
  | .vArr xs => String.intercalate "," (xs.map jsPrimToString)
  | .vObj _ => "[object Object]"
  | v => jsPrimToString v

/-- The kind-dependent constraint mapping carried by a field descriptor
(`validation` in the source). `itemValidation` nests a further mapping
for the element type of a child-less array, hence the inductive. -/
inductive Validation where
  | mk : (minLength maxLength : Option Int) → (pattern : Option String) →
      (email url : Bool) → (min max : Option Int) → (integer : Bool) →
      (minItems maxItems : Option Int) → (itemType : Option String) →
      (itemValidation : Option Validation) →
      (enumValues : Option (List String)) → (value : Option JVal) → Validation

def Validation.minLength : Validation → Option Int | .mk a _ _ _ _ _ _ _ _ _ _ _ _ _ => a
def Validation.maxLength : Validation → Option Int | .mk _ a _ _ _ _ _ _ _ _ _ _ _ _ => a
def Validation.pattern : Validation → Option String | .mk _ _ a _ _ _ _ _ _ _ _ _ _ _ => a
def Validation.email : Validation → Bool | .mk _ _ _ a _ _ _ _ _ _ _ _ _ _ => a
def Validation.url : Validation → Bool | .mk _ _ _ _ a _ _ _ _ _ _ _ _ _ => a
def Validation.min : Validation → Option Int | .mk _ _ _ _ _ a _ _ _ _ _ _ _ _ => a
def Validation.max : Validation → Option Int | .mk _ _ _ _ _ _ a _ _ _ _ _ _ _ => a
def Validation.integer : Validation → Bool | .mk _ _ _ _ _ _ _ a _ _ _ _ _ _ => a
def Validation.minItems : Validation → Option Int | .mk _ _ _ _ _ _ _ _ a _ _ _ _ _ => a
def Validation.maxItems : Validation → Option Int | .mk _ _ _ _ _ _ _ _ _ a _ _ _ _ => a
def Validation.itemType : Validation → Option String | .mk _ _ _ _ _ _ _ _ _ _ a _ _ _ => a
def Validation.itemValidation : Validation → Option Validation | .mk _ _ _ _ _ _ _ _ _ _ _ a _ _ => a
def Validation.enumValues : Validation → Option (List String) | .mk _ _ _ _ _ _ _ _ _ _ _ _ a _ => a
def Validation.value : Validation → Option JVal | .mk _ _ _ _ _ _ _ _ _ _ _ _ _ a => a

/-- The empty constraint mapping `{}`. -/
def Validation.empty : Validation :=
  .mk none none none false false none none false none none none none none none

/-- JavaScript truthiness of a possibly-absent number (`undefined` and
`0` are falsy). -/
def truthyN : Option Int → Bool
  | some n => n != 0
  | none => false

/-- JavaScript truthiness of a possibly-absent string (`undefined` and
`""` are falsy). -/
def truthyS : Option String → Bool
  | some s => s != ""
  | none => false

/-- A field descriptor as the Schema Compiler consumes it: the flat form
whose tree linkage is the optional `parentId` reference. Attributes the
source reads with a definedness or truthiness test are `Option`-typed. -/
structure CField where
  id : Option Int
  parentId : Option Int
  fieldName : String
  fieldType : String
  description : String
  required : Option Bool
  validation : Validation

/-- String-kind checks of a compiled zod string schema, in application
order. A regex check carries the source pattern text. -/
inductive StrCheck where
  | sMin : Int → StrCheck
  | sMax : Int → StrCheck
  | sRegex : String → StrCheck
  | sEmail : StrCheck
  | sUrl : StrCheck
deriving DecidableEq

/-- Number-kind checks of a compiled zod number schema. -/
inductive NumCheck where
  | nMin : Int → NumCheck
  | nMax : Int → NumCheck
  | nInt : NumCheck
deriving DecidableEq

/-- The validator object the Schema Compiler builds: a syntax tree of
the zod schema combinators the source applies. -/
inductive ZodSchema where
  | zstring : List StrCheck → ZodSchema
  | znumber : List NumCheck → ZodSchema
  | zboolean : ZodSchema
  | zdate : ZodSchema
  | zarray : ZodSchema → Option Int → Option Int → ZodSchema
  | zenum : List String → ZodSchema
  | zliteral : JVal → ZodSchema
  | zobject : List (String × ZodSchema) → ZodSchema
  | zoptional : ZodSchema → ZodSchema
  | zdescribe : String → ZodSchema → ZodSchema

/-- Compile-time failures of the Schema Compiler: the `RegExp`
constructor throwing on an invalid pattern, or the host call stack
overflowing on unboundedly recursive field linkage (modelled as fuel
exhaustion). -/
inductive CompileErr where
  | badRegex : String → CompileErr
  | depth : CompileErr
deriving DecidableEq

/-- A structured validation issue, as zod reports them: a field path and
the violated rule. -/
inductive ZIssue where
  | tooSmall : List String → ZIssue
  | tooBig : List String → ZIssue
  | invalidType : List String → String → String → ZIssue
  | invalidString : List String → String → ZIssue
  | invalidEnum : List String → ZIssue
  | invalidLiteral : List String → ZIssue
deriving DecidableEq

/-! ### The host regular-expression engine

The compiler calls `new RegExp(validation.pattern)` while building a
string schema, which throws a `SyntaxError` on an invalid pattern.
`jsRegexParse` models that constructor as a parser for the (annex-B
tolerant) JavaScript pattern grammar, returning `none` exactly where the
constructor throws; the derivative-based `regexSearch` models
`RegExp.prototype.test` for validate time. Assertions (`^`, `$`, `\b`,
lookaround) and backreferences are approximated as empty-matching atoms;
no theorem below depends on match-time behaviour of those forms. -/

/-- Syntax tree of a parsed pattern. `cls` is a (possibly negated)
set of character ranges. -/
inductive Regex where
  | emp : Regex
  | eps : Regex
  | chr : Char → Regex
  | anyc : Regex
  | cls : Bool → List (Char × Char) → Regex
  | cat : Regex → Regex → Regex
  | alt : Regex → Regex → Regex
  | star : Regex → Regex

/-- Does the regex accept the empty string? -/
def Regex.nullable : Regex → Bool
  | .emp => false
  | .eps => true
  | .chr _ => false
  | .anyc => false
  | .cls _ _ => false
  | .cat a b => a.nullable && b.nullable
  | .alt a b => a.nullable || b.nullable
  | .star _ => true

/-- Is the character inside the class ranges (before negation)? -/
def inRanges (c : Char) (items : List (Char × Char)) : Bool :=
  items.any (fun p => p.1 ≤ c && c ≤ p.2)

/-- Brzozowski derivative with respect to one character. `.` excludes
the newline as in JavaScript without the `s` flag. -/
def Regex.deriv : Regex → Char → Regex
  | .emp, _ => .emp
  | .eps, _ => .emp
  | .chr d, c => if c = d then .eps else .emp
  | .anyc, c => if c = '\n' then .emp else .eps
  | .cls neg items, c => if (inRanges c items) != neg then .eps else .emp
  | .cat a b, c =>
      if a.nullable then .alt (.cat (a.deriv c) b) (b.deriv c)
      else .cat (a.deriv c) b
  | .alt a b, c => .alt (a.deriv c) (b.deriv c)
  | .star a, c => .cat (a.deriv c) (.star a)

/-- Full-string match by iterated derivatives. -/
def Regex.matchesFull (r : Regex) : List Char → Bool
  | [] => r.nullable
  | c :: rest => (r.deriv c).matchesFull rest

/-- `RegExp.prototype.test`: an unanchored search, i.e. a full match of
`.* r .*` where `.*` here ranges over every character. -/
def regexSearch (r : Regex) (s : String) : Bool :=
  (Regex.cat (.star (.cls true [])) (.cat r (.star (.cls true [])))).matchesFull s.toList

/-- Read a run of decimal digits. -/
def readDigits : List Char → Option Nat → Option (Nat × List Char)
  | c :: rest, acc =>
      if c.isDigit then readDigits rest (some ((acc.getD 0) * 10 + (c.toNat - 48)))
      else acc.map (fun n => (n, c :: rest))
  | [], acc => acc.map (fun n => (n, []))

/-- Try to read a well-formed brace quantifier body after `{`:
`n}`, `n,}` or `n,m}`. `none` means the braces are not a quantifier
(annex B then treats `{` as a literal character). -/
def parseBraceQuant (cs : List Char) : Option (Nat × Option (Option Nat) × List Char) :=
  match readDigits cs none with
  | none => none
  | some (n, rest) =>
    match rest with
    | c :: rest2 =>
      if c.toNat == 125 then some (n, none, rest2)
      else if c == ',' then
        match rest2 with
        | d :: rest3 =>
          if d.toNat == 125 then some (n, some none, rest3)
          else
            match readDigits rest2 none with
            | some (m, e :: rest4) => if e.toNat == 125 then some (n, some (some m), rest4) else none
            | _ => none
        | [] => none
      else none
    | [] => none

/-- `r` repeated exactly `n` times. -/
def repeatR (r : Regex) : Nat → Regex
  | 0 => .eps
  | Nat.succ n => .cat r (repeatR r n)

/-- `r` repeated at most `n` times. -/
def upToR (r : Regex) : Nat → Regex
  | 0 => .eps
  | Nat.succ n => .cat (.alt r .eps) (upToR r n)

/-- Skip a lazy-quantifier marker `?`. -/
def lazySkip : List Char → List Char
  | '?' :: r => r
  | r => r

/-- Apply a postfix quantifier to a parsed atom. A well-formed `{n,m}`
with `n > m` is a `SyntaxError` (`none`); malformed braces leave `{`
to be read as a literal later. -/
def parseQuant (a : Regex) (cs : List Char) : Option (Regex × List Char) :=
  match cs with
  | '*' :: rest => some (.star a, lazySkip rest)
  | '+' :: rest => some (.cat a (.star a), lazySkip rest)
  | '?' :: rest => some (.alt a .eps, lazySkip rest)
  | c :: rest =>
    if c.toNat == 123 then
      match parseBraceQuant rest with
      | some (n, mo, rest2) =>
        match mo with
        | none => some (repeatR a n, lazySkip rest2)
        | some none => some (.cat (repeatR a n) (.star a), lazySkip rest2)
        | some (some m) =>
            if n ≤ m then some (.cat (repeatR a n) (upToR a (m - n)), lazySkip rest2)
            else none
      | none => some (a, cs)
    else some (a, cs)
  | [] => some (a, [])

/-- Ranges denoted by a class escape `\d`, `\w`, `\s` (and, approximated
without negation, their upper-case duals). -/
def classEsc (c : Char) : List (Char × Char) :=
  if c == 'd' || c == 'D' then [('0', '9')]
  else if c == 'w' || c == 'W' then [('a', 'z'), ('A', 'Z'), ('0', '9'), ('_', '_')]
  else if c == 's' || c == 'S' then [(' ', ' '), ('\t', '\t'), ('\n', '\n'), ('\r', '\r')]
  else if c == 'n' then [('\n', '\n')]
  else if c == 't' then [('\t', '\t')]
  else if c == 'r' then [('\r', '\r')]
  else [(c, c)]

/-- Parse the items of a character class after `[` (and after a leading
`^` has been taken). An unterminated class is a `SyntaxError`, as is a
range whose endpoints are out of order. -/
def parseClassItems (neg : Bool) (acc : List (Char × Char)) :
    List Char → Option (Regex × List Char)
  | [] => none
  | ']' :: rest => some (.cls neg acc.reverse, rest)
  | '\\' :: [] => none
  | '\\' :: c :: rest => parseClassItems neg (classEsc c ++ acc) rest
  | c :: '-' :: ']' :: rest => some (.cls neg (('-', '-') :: (c, c) :: acc).reverse, rest)
  | c :: '-' :: d :: rest =>
      if c ≤ d then parseClassItems neg ((c, d) :: acc) rest else none
  | c :: rest => parseClassItems neg ((c, c) :: acc) rest

/-- Parse a whole character class after the opening `[`. -/
def parseClass : List Char → Option (Regex × List Char)
  | '^' :: rest => parseClassItems true [] rest
  | rest => parseClassItems false [] rest

/-- The atom denoted by an escape outside a class. Boundary assertions
and backreferences are approximated as empty-matching atoms. -/
def escAtom (c : Char) : Regex :=
  if c == 'd' then .cls false [('0', '9')]
  else if c == 'D' then .cls true [('0', '9')]
  else if c == 'w' then .cls false [('a', 'z'), ('A', 'Z'), ('0', '9'), ('_', '_')]
  else if c == 'W' then .cls true [('a', 'z'), ('A', 'Z'), ('0', '9'), ('_', '_')]
  else if c == 's' then .cls false [(' ', ' '), ('\t', '\t'), ('\n', '\n'), ('\r', '\r')]
  else if c == 'S' then .cls true [(' ', ' '), ('\t', '\t'), ('\n', '\n'), ('\r', '\r')]
  else if c == 'n' then .chr '\n'
  else if c == 't' then .chr '\t'
  else if c == 'r' then .chr '\r'
  else if c == 'b' || c == 'B' then .eps
  else if c.isDigit then .eps
  else .chr c

/-- Skip to the closing `>` of a named-group name. -/
def skipToGt : List Char → Option (List Char)
  | [] => none
  | '>' :: r => some r
  | _ :: r => skipToGt r

/-- Strip a group-kind modifier after `(`: non-capturing, lookahead,
lookbehind or a named-group name. A lone `(?` is a `SyntaxError`. -/
def stripGroupMods : List Char → Option (List Char)
  | '?' :: ':' :: r => some r
  | '?' :: '=' :: r => some r
  | '?' :: '!' :: r => some r
  | '?' :: '<' :: '=' :: r => some r
  | '?' :: '<' :: '!' :: r => some r
  | '?' :: '<' :: r => skipToGt r
  | '?' :: _ => none
  | r => some r

/-- Parser phase: alternation, sequence, or single atom. -/
inductive PMode where
  | alt : PMode
  | seq : PMode
  | atom : PMode

/-- Recursive-descent parser for the pattern grammar. The fuel bounds
the call depth; `jsRegexParse` supplies more than the grammar can
consume. -/
def parseR : Nat → PMode → List Char → Option (Regex × List Char)
  | 0, _, _ => none
  | Nat.succ n, .alt, cs =>
    match parseR n .seq cs with
    | some (r, '|' :: rest) =>
      match parseR n .alt rest with
      | some (r2, rest2) => some (.alt r r2, rest2)
      | none => none
    | some (r, rest) => some (r, rest)
    | none => none
  | Nat.succ n, .seq, cs =>
    match cs with
    | [] => some (.eps, [])
    | ')' :: _ => some (.eps, cs)
    | '|' :: _ => some (.eps, cs)
    | _ =>
      match parseR n .atom cs with
      | some (a, rest) =>
        match parseQuant a rest with
        | some (aq, rest1) =>
          match parseR n .seq rest1 with
          | some (b, rest2) => some (.cat aq b, rest2)
          | none => none
        | none => none
      | none => none
  | Nat.succ n, .atom, cs =>
    match cs with
    | '(' :: rest =>
      match stripGroupMods rest with
      | none => none
      | some rest2 =>
        match parseR n .alt rest2 with
        | some (r, ')' :: rest3) => some (r, rest3)
        | _ => none
    | '[' :: rest => parseClass rest
    | '\\' :: [] => none
    | '\\' :: c :: rest => some (escAtom c, rest)
    | '^' :: rest => some (.eps, rest)
    | '$' :: rest => some (.eps, rest)
    | '.' :: rest => some (.anyc, rest)
    | '*' :: _ => none
    | '+' :: _ => none
    | '?' :: _ => none
    | ')' :: _ => none
    | c :: rest => some (.chr c, rest)
    | [] => none

/-- The `new RegExp(pattern)` constructor: `some` the parsed pattern, or
`none` where the host constructor throws a `SyntaxError`. -/
def jsRegexParse (s : String) : Option Regex :=
  match parseR (s.length * 4 + 8) .alt s.toList with
  | some (r, []) => some r
  | _ => none

/-- Split a character list at every occurrence of a separator. -/
def splitOnChar (c : Char) : List Char → List (List Char)
  | [] => [[]]
  | d :: rest =>
    let r := splitOnChar c rest
    if d == c then [] :: r
    else
      match r with
      | h :: t => (d :: h) :: t
      | [] => [[d]]

/-- Modelled from the spec: the third-party validator's email-shaped
string check (`z.string().email()`), simplified to local-part at one
`@` followed by a dotted domain whose final label is alphabetic. -/
def isEmailShaped (s : String) : Bool :=
  match splitOnChar '@' s.toList with
  | [lp, dp] =>
    let labels := splitOnChar '.' dp
    !lp.isEmpty && lp.all (fun c => c.isAlphanum || c == '.' || c == '_' || c == '+' || c == '-')
      && (match lp with
          | '.' :: _ => false
          | _ => true)
      && labels.length ≥ 2
      && labels.all (fun l => !l.isEmpty && l.all (fun c => c.isAlphanum || c == '-'))
      && (match labels.getLast? with
          | some l => l.length ≥ 2 && l.all Char.isAlpha
          | none => false)
  | _ => false

/-- Modelled from the spec: the third-party validator's URL-shaped
string check (`z.string().url()`), simplified to an http(s) scheme with
a nonempty remainder. -/
def isUrlShaped (s : String) : Bool :=
  (List.isPrefixOf "http://".toList s.toList && s.length > 7)
    || (List.isPrefixOf "https://".toList s.toList && s.length > 8)

/-! ### The Schema Compiler

Embedding of `createZodFieldFromConfig`, `createObjectFromFields` and
`convertUIConfigToZodSchema` from
StructuredOutputParserAdvancedUI.ts. The source recurses through the
flat field list by `parentId` lookups; because duplicated identities can
make that recursion unbounded (a stack overflow in the host), the
embedding takes a fuel argument and reports exhaustion as
`CompileErr.depth`. -/

/-- The `case 'string'` arm of `createZodFieldFromConfig`: length and
pattern checks are appended under truthiness tests, `new RegExp` is
evaluated (and can throw) before the `email`/`url` overrides, and a
truthy `email` or `url` replaces the accumulated schema with a fresh
single-check one, the `url` assignment last. -/
def compileStringChecks (v : Validation) : Except CompileErr ZodSchema :=
  let base :=
    (if truthyN v.minLength then [StrCheck.sMin (v.minLength.getD 0)] else [])
      ++ (if truthyN v.maxLength then [StrCheck.sMax (v.maxLength.getD 0)] else [])
  let finish := fun (cs : List StrCheck) =>
    if v.url then [StrCheck.sUrl] else if v.email then [StrCheck.sEmail] else cs
  if truthyS v.pattern then
    match jsRegexParse (v.pattern.getD "") with
    | none => .error (.badRegex (v.pattern.getD ""))
    | some _ => .ok (.zstring (finish (base ++ [StrCheck.sRegex (v.pattern.getD "")])))
  else .ok (.zstring (finish base))

/-- The `case 'number'` arm: `min`/`max` are applied under a
definedness (not truthiness) test, so an explicit `0` is honored. -/
def compileNumberChecks (v : Validation) : ZodSchema :=
  .znumber ((if v.min.isSome then [NumCheck.nMin (v.min.getD 0)] else [])
    ++ (if v.max.isSome then [NumCheck.nMax (v.max.getD 0)] else [])
    ++ (if v.integer then [NumCheck.nInt] else []))

/-- The per-field wrapping `createObjectFromFields` applies after
compiling a field: `.optional()` unless `required` is truthy, then
`.describe(...)` if the description is truthy. -/
def wrapZodField (f : CField) (s : ZodSchema) : ZodSchema :=
  let s1 := if f.required == some true then s else .zoptional s
  if f.description != "" then .zdescribe f.description s1 else s1

/-- Fold the per-field compilation results of `createObjectFromFields`
into the shape mapping, propagating the first raised error as the loop
in the source would. -/
def collectEntries : List (CField × Except CompileErr ZodSchema) →
    Except CompileErr (List (String × ZodSchema))
  | [] => .ok []
  | (_, .error e) :: _ => .error e
  | (f, .ok s) :: rest =>
    match collectEntries rest with
    | .error e => .error e
    | .ok es => .ok ((f.fieldName, wrapZodField f s) :: es)

/-- The synthetic element descriptor built in the child-less `array`
arm: `{ fieldType: validation.itemType || 'string', validation:
validation.itemValidation || {} }`; every other attribute is absent. -/
def itemField (v : Validation) : CField :=
  { id := none, parentId := none, fieldName := "", description := "", required := none
    fieldType :=
      match v.itemType with
      | some s => if s != "" then s else "string"
      | none => "string"
    validation := v.itemValidation.getD Validation.empty }

/-- `createZodFieldFromConfig(field, allFields)`: compile one field
descriptor, finding its children as the fields whose `parentId` equals
this field's `id` (strict equality, so two absent values match, as
`undefined === undefined` does). -/
def createZodFieldFromConfig : Nat → CField → List CField → Except CompileErr ZodSchema
  | 0, _, _ => .error .depth
  | Nat.succ fuel, f, allFields =>
    let v := f.validation
    let childFields := allFields.filter (fun g => g.parentId == f.id)
    match f.fieldType with
    | "string" => compileStringChecks v
    | "number" => .ok (compileNumberChecks v)
    | "boolean" => .ok .zboolean
    | "array" =>
      let b1 := if truthyN v.minItems then v.minItems else none
      let b2 := if truthyN v.maxItems then v.maxItems else none
      if childFields.length > 0 then
        match collectEntries (childFields.map
            (fun cf => (cf, createZodFieldFromConfig fuel cf allFields))) with
        | .error e => .error e
        | .ok es => .ok (.zarray (.zobject es) b1 b2)
      else
        match createZodFieldFromConfig fuel (itemField v) allFields with
        | .error e => .error e
        | .ok s => .ok (.zarray s b1 b2)
    | "enum" =>
      match v.enumValues with
      | some xs => if xs.length > 0 then .ok (.zenum xs) else .ok (.zstring [])
      | none => .ok (.zstring [])
    | "object" =>
      if childFields.length > 0 then
        match collectEntries (childFields.map
            (fun cf => (cf, createZodFieldFromConfig fuel cf allFields))) with
        | .error e => .error e
        | .ok es => .ok (.zobject es)
      else .ok (.zobject [])
    | "date" => .ok .zdate
    | "literal" =>
      match v.value with
      | some jv => .ok (.zliteral jv)
      | none => .ok (.zstring [])
    | _ => .ok (.zstring [])

/-- `createObjectFromFields(fieldsToProcess, allFields)`: compile each
field, wrap with optional/describe, and collect into an object shape. -/
def createObjectFromFields : Nat → List CField → List CField → Except CompileErr ZodSchema
  | 0, _, _ => .error .depth
  | Nat.succ fuel, fieldsToProcess, allFields =>
    match collectEntries (fieldsToProcess.map
        (fun f => (f, createZodFieldFromConfig fuel f allFields))) with
    | .error e => .error e
    | .ok es => .ok (.zobject es)

/-- `convertUIConfigToZodSchema(schemaConfig)`: the root fields are the
descriptors whose `parentId` is falsy. -/
def convertUIConfigToZodSchema (fuel : Nat) (schemaConfig : List CField) :
    Except CompileErr ZodSchema :=
  createObjectFromFields fuel (schemaConfig.filter (fun f => !truthyN f.parentId)) schemaConfig

/-! ### Validate-time semantics

`validateAt` models `Validator.validate` — what zod v3's `parse` does
with the schemas the compiler builds — returning the structured issue
list (empty means success). A `none` input value stands for an absent
(`undefined`) attribute; a missing required attribute yields zod's
"Required" issue, which is an `invalid_type` with received
`undefined`. The fuel argument stands for recursion into the schema
tree and only decreases there; any fuel exceeding the schema depth
yields the same result. -/

/-- Look a key up in a JavaScript object, where a duplicated key takes
its last binding. -/
def jsLookup (k : String) (kvs : List (String × JVal)) : Option JVal :=
  (kvs.reverse.find? (fun p => p.1 == k)).map (fun p => p.2)

/-- The type name zod reports for a possibly-absent received value. -/
def recvName : Option JVal → String
  | none => "undefined"
  | some v => v.typeName

/-- Issues of one string check against a string instance. -/
def strCheckIssues (path : List String) (s : String) : StrCheck → List ZIssue
  | .sMin n => if (s.length : Int) < n then [.tooSmall path] else []
  | .sMax n => if (s.length : Int) > n then [.tooBig path] else []
  | .sRegex pat =>
    match jsRegexParse pat with
    | some r => if regexSearch r s then [] else [.invalidString path "regex"]
    | none => [.invalidString path "regex"]
  | .sEmail => if isEmailShaped s then [] else [.invalidString path "email"]
  | .sUrl => if isUrlShaped s then [] else [.invalidString path "url"]

/-- Issues of one number check against a numeric instance. The `int`
check never fires because numbers are modelled as integers. -/
def numCheckIssues (path : List String) (n : Int) : NumCheck → List ZIssue
  | .nMin m => if n < m then [.tooSmall path] else []
  | .nMax m => if n > m then [.tooBig path] else []
  | .nInt => []

/-- Validate an instance value (or its absence) against a compiled
schema, accumulating path-qualified issues. -/
def validateAt : Nat → List String → ZodSchema → Option JVal → List ZIssue
  | 0, path, _, _ => [.invalidType path "internal" "fuel"]
  | Nat.succ fuel, path, s, vv =>
    match s, vv with
    | .zoptional _, none => []
    | .zoptional inner, some v => validateAt fuel path inner (some v)
    | .zdescribe _ inner, v => validateAt fuel path inner v
    | .zstring cs, some (.vStr str) => (cs.map (fun ck => strCheckIssues path str ck)).flatten
    | .zstring _, v => [.invalidType path "string" (recvName v)]
    | .znumber cs, some (.vNum n) => (cs.map (fun ck => numCheckIssues path n ck)).flatten
    | .znumber _, v => [.invalidType path "number" (recvName v)]
    | .zboolean, some (.vBool _) => []
    | .zboolean, v => [.invalidType path "boolean" (recvName v)]
    | .zdate, some (.vDate _) => []
    | .zdate, v => [.invalidType path "date" (recvName v)]
    | .zenum vals, some (.vStr str) => if vals.contains str then [] else [.invalidEnum path]
    | .zenum _, v => [.invalidType path "enum" (recvName v)]
    | .zliteral lv, some v => if jvalBeq lv v then [] else [.invalidLiteral path]
    | .zliteral _, none => [.invalidLiteral path]
    | .zarray elem b1 b2, some (.vArr xs) =>
      (match b1 with
        | some n => if (xs.length : Int) < n then [ZIssue.tooSmall path] else []
        | none => [])
      ++ (match b2 with
        | some n => if (xs.length : Int) > n then [ZIssue.tooBig path] else []
        | none => [])
      ++ (xs.enum.map (fun p => validateAt fuel (path ++ [toString p.1]) elem (some p.2))).flatten
    | .zarray _ _ _, v => [.invalidType path "array" (recvName v)]
    | .zobject shape, some (.vObj kvs) =>
      (shape.map (fun e => validateAt fuel (path ++ [e.1]) e.2 (jsLookup e.1 kvs))).flatten
    | .zobject _, v => [.invalidType path "object" (recvName v)]

/-! ### The Descriptor Normalizer

Embedding of `normalizeField` from ZodSchemaBuilder.jsx. A raw field may
be missing any attribute; `Date.now() + Math.random()` is modelled as a
caller-supplied generator `g` consulted at an incrementing counter each
time an id must be produced (the host expression always yields a
positive, hence truthy, number). The normalizer builds an object with
exactly the seven listed keys, so an incoming `parentId` is dropped. -/

/-- A raw, possibly partial field descriptor, as handed to the
normalizer. -/
inductive RawField where
  | mk : (id : Option Int) → (fieldName : Option String) → (fieldType : Option String) →
      (description : Option String) → (required : Option Bool) →
      (validation : Option Validation) → (children : Option (List RawField)) →
      (parentId : Option Int) → RawField

def RawField.id : RawField → Option Int | .mk a _ _ _ _ _ _ _ => a
def RawField.fieldName : RawField → Option String | .mk _ a _ _ _ _ _ _ => a
def RawField.fieldType : RawField → Option String | .mk _ _ a _ _ _ _ _ => a
def RawField.description : RawField → Option String | .mk _ _ _ a _ _ _ _ => a
def RawField.required : RawField → Option Bool | .mk _ _ _ _ a _ _ _ => a
def RawField.validation : RawField → Option Validation | .mk _ _ _ _ _ a _ _ => a
def RawField.children : RawField → Option (List RawField) | .mk _ _ _ _ _ _ a _ => a
def RawField.parentId : RawField → Option Int | .mk _ _ _ _ _ _ _ a => a

/-- A canonical field descriptor: every attribute present, children
fully nested. -/
inductive UIField where
  | mk : (id : Int) → (fieldName fieldType description : String) → (required : Bool) →
      (validation : Validation) → (children : List UIField) → UIField

def UIField.id : UIField → Int | .mk a _ _ _ _ _ _ => a
def UIField.fieldName : UIField → String | .mk _ a _ _ _ _ _ => a
def UIField.fieldType : UIField → String | .mk _ _ a _ _ _ _ => a
def UIField.description : UIField → String | .mk _ _ _ a _ _ _ => a
def UIField.required : UIField → Bool | .mk _ _ _ _ a _ _ => a
def UIField.validation : UIField → Validation | .mk _ _ _ _ _ a _ => a
def UIField.children : UIField → List UIField | .mk _ _ _ _ _ _ a => a

/-- `field.id || (Date.now() + Math.random())`: a truthy id is kept, a
falsy or absent one is drawn from the generator, advancing the
counter. -/
def genId (g : Nat → Int) (i : Option Int) (c : Nat) : Int × Nat :=
  match i with
  | some x => if x != 0 then (x, c) else (g c, c + 1)
  | none => (g c, c + 1)

/-- `field.fieldType || 'string'`. -/
def tyDefault : Option String → String
  | some s => if s != "" then s else "string"
  | none => "string"

mutual

/-- The `normalizeField` closure: fill defaults for the seven canonical
attributes and recursively normalize present children. -/
def normalizeField (g : Nat → Int) : RawField → Nat → UIField × Nat
  | .mk i nm ty ds rq vl ch _pid, c =>
    let idp := genId g i c
    let kidsp : List UIField × Nat :=
      match ch with
      | some l => normalizeList g l idp.2
      | none => ([], idp.2)
    (.mk idp.1 (nm.getD "") (tyDefault ty) (ds.getD "") (rq.getD true)
      (vl.getD Validation.empty) kidsp.1, kidsp.2)

/-- `parsedValue.map(normalizeField)`, threading the id counter in
evaluation order. -/
def normalizeList (g : Nat → Int) : List RawField → Nat → List UIField × Nat
  | [], c => ([], c)
  | f :: rest, c =>
    let fp := normalizeField g f c
    let rp := normalizeList g rest fp.2
    (fp.1 :: rp.1, rp.2)

end

mutual

/-- Re-embed a canonical field as a raw one (every attribute present),
for feeding normalization's own output back to it. -/
def toRaw : UIField → RawField
  | .mk i nm ty ds rq vl ch =>
    .mk (some i) (some nm) (some ty) (some ds) (some rq) (some vl) (some (toRaws ch)) none

/-- Re-embed a canonical field list as a raw list. -/
def toRaws : List UIField → List RawField
  | [] => []
  | f :: rest => toRaw f :: toRaws rest

end

mutual

/-- Canonical-shape invariant normalization establishes: every id and
kind in the tree is truthy. -/
def canonB : UIField → Bool
  | .mk i _ ty _ _ _ ch => (i != 0) && (ty != "") && canonListB ch

/-- `canonB` over a field list. -/
def canonListB : List UIField → Bool
  | [] => true
  | f :: rest => canonB f && canonListB rest

end

/-! ### The Preview Code Generator

Embedding of `generateFieldTypeCode` and `generateNestedObjectCode`
from ZodSchemaBuilder.jsx, producing the preview text for one field of
the canonical tree. The fuel argument bounds recursion into children
(the host call stack); no branch below consumes it except through a
child field. -/

/-- The entry text `generateNestedObjectCode` renders for one child,
given a renderer for its type code: name, type code, `.optional()` when
not required, `.describe(...)` when described. -/
def genEntry (render : UIField → String) (c : UIField) : String :=
  c.fieldName ++ ": " ++ render c
    ++ (if c.required then "" else ".optional()")
    ++ (if c.description != "" then ".describe(\x27" ++ c.description ++ "\x27)" else "")

/-- `generateNestedObjectCode(children)` given a renderer for child
type codes: children with falsy names are filtered out. -/
def genNested (render : UIField → String) (children : List UIField) : String :=
  if children.isEmpty then "z.object(\x7b\x7d)"
  else
    "z.object(\x7b\n      "
      ++ String.intercalate ",\n      "
          ((children.filter (fun c => c.fieldName != "")).map (genEntry render))
      ++ "\n    \x7d)"

/-- `generateFieldTypeCode(field)`: the preview text for one field's
type expression. -/
def generateFieldTypeCode : Nat → UIField → String
  | 0, _ => ""
  | Nat.succ fuel, fld =>
    let v := fld.validation
    match fld.fieldType with
    | "string" =>
      let c0 := "z.string()"
      let c1 := if truthyN v.minLength then c0 ++ ".min(" ++ toString (v.minLength.getD 0) ++ ")" else c0
      let c2 := if truthyN v.maxLength then c1 ++ ".max(" ++ toString (v.maxLength.getD 0) ++ ")" else c1
      let c3 := if truthyS v.pattern then c2 ++ ".regex(/" ++ v.pattern.getD "" ++ "/)" else c2
      let c4 := if v.email then "z.string().email()" else c3
      if v.url then "z.string().url()" else c4
    | "number" =>
      let c0 := "z.number()"
      let c1 := if v.min.isSome then c0 ++ ".min(" ++ toString (v.min.getD 0) ++ ")" else c0
      let c2 := if v.max.isSome then c1 ++ ".max(" ++ toString (v.max.getD 0) ++ ")" else c1
      if v.integer then c2 ++ ".int()" else c2
    | "boolean" => "z.boolean()"
    | "array" =>
      let base :=
        if fld.children.length > 0 then
          "z.array(" ++ genNested (generateFieldTypeCode fuel) fld.children ++ ")"
        else "z.array(z." ++ tyDefault v.itemType ++ "())"
      let b1 := if truthyN v.minItems then base ++ ".min(" ++ toString (v.minItems.getD 0) ++ ")" else base
      if truthyN v.maxItems then b1 ++ ".max(" ++ toString (v.maxItems.getD 0) ++ ")" else b1
    | "enum" =>
      match v.enumValues with
      | some xs =>
        if xs.length > 0 then
          "z.enum([" ++ String.intercalate ", " (xs.map (fun x => "\x27" ++ x ++ "\x27")) ++ "])"
        else "z.string()"
      | none => "z.string()"
    | "object" =>
      if fld.children.length > 0 then genNested (generateFieldTypeCode fuel) fld.children
      else "z.object(\x7b\x7d)"
    | "date" => "z.date()"
    | "literal" =>
      match v.value with
      | some jv => "z.literal(\x27" ++ jsToString jv ++ "\x27)"
      | none => "z.string()"
    | _ => "z.string()"

/-- `generateNestedObjectCode(children)` as a standalone entry point. -/
def generateNestedObjectCode (fuel : Nat) (children : List UIField) : String :=
  genNested (generateFieldTypeCode fuel) children

/-! ### Concrete descriptor examples used by the theorems -/

/-- String-kind constraints `minLength=2, maxLength=5`. -/
def vC7 : Validation := .mk (some 2) (some 5) none false false none none false none none none none none none

/-- A single required string field with the C7 constraints. -/
def exC7field : CField :=
  { id := some 1, parentId := none, fieldName := "f", fieldType := "string"
    description := "", required := some true, validation := vC7 }

/-- The schema C7's tree compiles to. -/
def c7schema : ZodSchema := .zobject [("f", .zstring [.sMin 2, .sMax 5])]

/-- C7: for a tree with a single string field with minLength=2,
maxLength=5, required=true, the compiled validator accepts "ab",
rejects "a" as too short, rejects "abcdef" as too long, and rejects an
instance lacking the field with a required (invalid-type on undefined)
violation. -/
theorem c7_string_bounds_and_required :
    convertUIConfigToZodSchema 2 [exC7field] = .ok c7schema
    ∧ validateAt 3 [] c7schema (some (.vObj [("f", .vStr "ab")])) = []
    ∧ validateAt 3 [] c7schema (some (.vObj [("f", .vStr "a")])) = [.tooSmall ["f"]]
    ∧ validateAt 3 [] c7schema (some (.vObj [("f", .vStr "abcdef")])) = [.tooBig ["f"]]
    ∧ validateAt 3 [] c7schema (some (.vObj [])) = [.invalidType ["f"] "string" "undefined"] :=
  ⟨rfl, rfl, rfl, rfl, rfl⟩

/-- C10: a descriptor whose `required` attribute is absent compiles to
an optional-wrapped field constraint in the object shape (the source
tests `!field.required`, so anything but `true` yields the wrap), and
the optional wrapper accepts an absent value. -/
theorem c10_absent_required_compiles_optional :
    ∀ (fuel : Nat) (f : CField) (allF : List CField) (s : ZodSchema),
      f.required = none →
      createZodFieldFromConfig fuel f allF = .ok s →
      createObjectFromFields (fuel + 1) [f] allF
          = .ok (.zobject [(f.fieldName,
              if f.description != "" then .zdescribe f.description (.zoptional s)
              else .zoptional s)])
        ∧ (∀ fuel2, validateAt (fuel2 + 1) [] (.zoptional s) none = []) := by
  intro fuel f allF s hreq hok
  constructor
  · simp [createObjectFromFields, hok, collectEntries, wrapZodField, hreq]
  · intro fuel2
    simp [validateAt]

/-- A boolean field with no `required` attribute, for the C10 witness. -/
def exC10field : CField :=
  { id := some 1, parentId := none, fieldName := "x", fieldType := "boolean"
    description := "", required := none, validation := Validation.empty }

/-- Witness instantiating C10 at a concrete descriptor. -/
theorem c10_witness :
    createObjectFromFields 2 [exC10field] [] = .ok (.zobject [("x", .zoptional .zboolean)])
    ∧ validateAt 1 [] (.zoptional .zboolean) none = [] := by
  obtain ⟨h1, h2⟩ := c10_absent_required_compiles_optional 1 exC10field [] .zboolean rfl rfl
  exact ⟨h1, h2 0⟩

/-- C6: an enum field with a non-empty `enumValues` compiles to the
fixed-set check accepting exactly the listed strings (a wrong string
yields an allowed-values violation, a non-string an invalid-type
issue), and with absent or empty `enumValues` it degrades to an
unconstrained string check; concretely with values red/green/blue,
"green" validates and "purple" fails. -/
theorem c6_enum_fixed_set_or_string_fallback :
    ∀ (fuel : Nat) (f g : CField) (allF : List CField) (xs : List String),
      f.fieldType = "enum" → f.validation.enumValues = some xs → xs ≠ [] →
      g.fieldType = "enum" →
      (g.validation.enumValues = none ∨ g.validation.enumValues = some []) →
      createZodFieldFromConfig (fuel + 1) f allF = .ok (.zenum xs)
      ∧ createZodFieldFromConfig (fuel + 1) g allF = .ok (.zstring [])
      ∧ (∀ s fuel2, validateAt (fuel2 + 1) [] (.zenum xs) (some (.vStr s)) = [] ↔ s ∈ xs)
      ∧ (∀ v fuel2, validateAt (fuel2 + 1) [] (.zenum xs) (some v) = [] →
          ∃ s, v = .vStr s ∧ s ∈ xs)
      ∧ validateAt 1 [] (.zenum ["red", "green", "blue"]) (some (.vStr "green")) = []
      ∧ validateAt 1 [] (.zenum ["red", "green", "blue"]) (some (.vStr "purple"))
          = [.invalidEnum []] := by
  intro fuel f g allF xs hft he hne hgt hge
  refine ⟨?_, ?_, ?_, ?_, rfl, rfl⟩
  · simp [createZodFieldFromConfig, hft, he, List.length_pos.mpr hne]
  · rcases hge with h | h <;> simp [createZodFieldFromConfig, hgt, h]
  · intro s fuel2
    by_cases hc : s ∈ xs
    · simp [validateAt, hc]
    · simp [validateAt, hc]
  · intro v fuel2 h
    cases v with
    | vStr s =>
      refine ⟨s, rfl, ?_⟩
      by_cases hc : s ∈ xs
      · exact hc
      · simp [validateAt, hc] at h
    | vNull => simp [validateAt] at h
    | vBool b => simp [validateAt] at h
    | vNum n => simp [validateAt] at h
    | vDate t => simp [validateAt] at h
    | vArr l => simp [validateAt] at h
    | vObj l => simp [validateAt] at h

/-- An enum field with values red/green/blue, for the C6 witness. -/
def exC6field : CField :=
  { id := some 1, parentId := none, fieldName := "c", fieldType := "enum"
    description := "", required := some true
    validation := .mk none none none false false none none false none none none none
      (some ["red", "green", "blue"]) none }

/-- An enum field with empty `enumValues`, for the C6 witness. -/
def exC6empty : CField :=
  { id := some 2, parentId := none, fieldName := "d", fieldType := "enum"
    description := "", required := some true
    validation := .mk none none none false false none none false none none none none
      (some []) none }

/-- Witness instantiating C6 at the red/green/blue descriptor. -/
theorem c6_witness :
    createZodFieldFromConfig 1 exC6field [] = .ok (.zenum ["red", "green", "blue"])
    ∧ createZodFieldFromConfig 1 exC6empty [] = .ok (.zstring [])
    ∧ (validateAt 1 [] (.zenum ["red", "green", "blue"]) (some (.vStr "green")) = []
        ↔ "green" ∈ ["red", "green", "blue"])
    ∧ validateAt 1 [] (.zenum ["red", "green", "blue"]) (some (.vStr "purple"))
        = [.invalidEnum []] := by
  obtain ⟨h1, h2, h3, _, _, h6⟩ :=
    c6_enum_fixed_set_or_string_fallback 0 exC6field exC6empty [] ["red", "green", "blue"]
      rfl rfl (by simp) rfl (Or.inr rfl)
  exact ⟨h1, h2, h3 "green" 0, h6⟩

/-- C3: on a string field whose constraints set `email` (or `url`),
whatever the length or pattern constraints, any successfully compiled
schema carries only the email-shaped (resp. URL-shaped) check — the
overrides in the source replace the accumulated checks; concretely the
single email check accepts "a@b.co" and rejects "not-an-email". -/
theorem c3_email_url_override_length_pattern :
    ∀ (fuel fuel2 : Nat) (f g : CField) (allF allF2 : List CField) (s t : ZodSchema),
      f.fieldType = "string" → f.validation.email = true → f.validation.url = false →
      createZodFieldFromConfig fuel f allF = .ok s →
      g.fieldType = "string" → g.validation.url = true →
      createZodFieldFromConfig fuel2 g allF2 = .ok t →
      s = .zstring [.sEmail] ∧ t = .zstring [.sUrl]
      ∧ validateAt 1 [] (.zstring [.sEmail]) (some (.vStr "a@b.co")) = []
      ∧ validateAt 1 [] (.zstring [.sEmail]) (some (.vStr "not-an-email"))
          = [.invalidString [] "email"] := by
  intro fuel fuel2 f g allF allF2 s t hft hfe hfu hok hgt hgu hok2
  refine ⟨?_, ?_, rfl, rfl⟩
  · cases fuel with
    | zero => simp [createZodFieldFromConfig] at hok
    | succ n =>
      simp [createZodFieldFromConfig, hft, compileStringChecks, hfe, hfu] at hok
      split at hok
      · split at hok
        · simp at hok
        · simp at hok
          exact hok.symm
      · simp at hok
        exact hok.symm
  · cases fuel2 with
    | zero => simp [createZodFieldFromConfig] at hok2
    | succ n =>
      simp [createZodFieldFromConfig, hgt, compileStringChecks, hgu] at hok2
      split at hok2
      · split at hok2
        · simp at hok2
        · simp at hok2
          exact hok2.symm
      · simp at hok2
        exact hok2.symm

/-- An email-checked string field that also sets `maxLength=3`, for the
C3 witness: the claim's own concrete pair. -/
def exC3email : CField :=
  { id := some 1, parentId := none, fieldName := "e", fieldType := "string"
    description := "", required := some true
    validation := .mk none (some 3) none true false none none false none none none none none none }

/-- A URL-checked string field that also sets `minLength=9`, for the C3
witness. -/
def exC3url : CField :=
  { id := some 2, parentId := none, fieldName := "u", fieldType := "string"
    description := "", required := some true
    validation := .mk (some 9) none none false true none none false none none none none none none }

/-- Witness instantiating C3: with `email=true` and `maxLength=3` the
compiled schema is the bare email check, "a@b.co" passes despite its
length and "not-an-email" fails. -/
theorem c3_witness :
    createZodFieldFromConfig 1 exC3email [] = .ok (.zstring [.sEmail])
    ∧ createZodFieldFromConfig 1 exC3url [] = .ok (.zstring [.sUrl])
    ∧ validateAt 1 [] (.zstring [.sEmail]) (some (.vStr "a@b.co")) = []
    ∧ validateAt 1 [] (.zstring [.sEmail]) (some (.vStr "not-an-email"))
        = [.invalidString [] "email"] := by
  obtain ⟨h1, h2, h3, h4⟩ :=
    c3_email_url_override_length_pattern 1 1 exC3email exC3url [] []
      (.zstring [.sEmail]) (.zstring [.sUrl]) rfl rfl rfl rfl rfl rfl rfl
  exact ⟨h1 ▸ rfl, h2 ▸ rfl, h3, h4⟩

/-- C9: zero-valued bounds are not uniform. String `minLength`/
`maxLength` of 0 (and an empty `pattern`), and array `minItems`/
`maxItems` of 0, are truthiness-tested and so compile to no check at
all, while number `min`/`max` of 0 are definedness-tested and compile
to real bounds that reject -1 and 1 and accept 0. -/
theorem c9_zero_bounds_not_uniform :
    ∀ (fuel : Nat) (fa fb fc : CField) (allF : List CField),
      fa.fieldType = "string" → fa.validation.minLength = some 0 →
      fa.validation.maxLength = some 0 → fa.validation.pattern = some "" →
      fa.validation.email = false → fa.validation.url = false →
      fb.fieldType = "array" → fb.validation.minItems = some 0 →
      fb.validation.maxItems = some 0 → fb.validation.itemType = none →
      fb.validation.itemValidation = none →
      fc.fieldType = "number" → fc.validation.min = some 0 →
      fc.validation.max = some 0 → fc.validation.integer = false →
      createZodFieldFromConfig (fuel + 1) fa allF = .ok (.zstring [])
      ∧ createZodFieldFromConfig (fuel + 2) fb [] = .ok (.zarray (.zstring []) none none)
      ∧ createZodFieldFromConfig (fuel + 1) fc allF = .ok (.znumber [.nMin 0, .nMax 0])
      ∧ (∀ fuel2, validateAt (fuel2 + 1) [] (.znumber [.nMin 0, .nMax 0])
            (some (.vNum (-1))) = [.tooSmall []])
      ∧ (∀ fuel2, validateAt (fuel2 + 1) [] (.znumber [.nMin 0, .nMax 0])
            (some (.vNum 1)) = [.tooBig []])
      ∧ (∀ fuel2, validateAt (fuel2 + 1) [] (.znumber [.nMin 0, .nMax 0])
            (some (.vNum 0)) = []) := by
  intro fuel fa fb fc allF haft haml hamx hapat hae hau hbft hbmi hbmx hbit hbiv
    hcft hcmn hcmx hcint
  refine ⟨?_, ?_, ?_, ?_, ?_, ?_⟩
  · simp [createZodFieldFromConfig, haft, compileStringChecks, haml, hamx, hapat, hae, hau,
      truthyN, truthyS]
  · simp [createZodFieldFromConfig, hbft, hbmi, hbmx, hbit, hbiv, truthyN, itemField,
      tyDefault, compileStringChecks, truthyS, Validation.empty, Validation.pattern,
      Validation.minLength, Validation.maxLength, Validation.email, Validation.url]
  · simp [createZodFieldFromConfig, hcft, compileNumberChecks, hcmn, hcmx, hcint]
  · intro fuel2
    simp [validateAt, numCheckIssues]
  · intro fuel2
    simp [validateAt, numCheckIssues]
  · intro fuel2
    simp [validateAt, numCheckIssues]

/-- A string field with zero-valued length bounds and empty pattern,
for the C9 witness. -/
def exC9str : CField :=
  { id := some 1, parentId := none, fieldName := "s", fieldType := "string"
    description := "", required := some true
    validation := .mk (some 0) (some 0) (some "") false false none none false none none none none none none }

/-- An array field with zero-valued item bounds, for the C9 witness. -/
def exC9arr : CField :=
  { id := some 2, parentId := none, fieldName := "a", fieldType := "array"
    description := "", required := some true
    validation := .mk none none none false false none none false (some 0) (some 0) none none none none }

/-- A number field with zero-valued bounds, for the C9 witness. -/
def exC9num : CField :=
  { id := some 3, parentId := none, fieldName := "n", fieldType := "number"
    description := "", required := some true
    validation := .mk none none none false false (some 0) (some 0) false none none none none none none }

/-- Witness instantiating C9 at concrete zero-bound descriptors. -/
theorem c9_witness :
    createZodFieldFromConfig 1 exC9str [] = .ok (.zstring [])
    ∧ createZodFieldFromConfig 2 exC9arr [] = .ok (.zarray (.zstring []) none none)
    ∧ createZodFieldFromConfig 1 exC9num [] = .ok (.znumber [.nMin 0, .nMax 0])
    ∧ validateAt 1 [] (.znumber [.nMin 0, .nMax 0]) (some (.vNum (-1))) = [.tooSmall []] := by
  obtain ⟨h1, h2, h3, h4, _, _⟩ :=
    c9_zero_bounds_not_uniform 0 exC9str exC9arr exC9num []
      rfl rfl rfl rfl rfl rfl rfl rfl rfl rfl rfl rfl rfl rfl rfl
  exact ⟨h1, h2, h3, h4 0⟩

/-- The string arm errors only by raising on an invalid pattern. -/
theorem compileStringChecks_err (v : Validation) (e : CompileErr)
    (h : compileStringChecks v = .error e) :
    ∃ p, e = .badRegex p ∧ jsRegexParse p = none := by
  unfold compileStringChecks at h
  by_cases hp : truthyS v.pattern = true
  · rw [if_pos hp] at h
    cases hj : jsRegexParse (v.pattern.getD "") with
    | none =>
      rw [hj] at h
      simp at h
      exact ⟨v.pattern.getD "", h.symm, hj⟩
    | some r =>
      rw [hj] at h
      simp at h
  · rw [if_neg hp] at h
    simp at h

/-- An error out of the entry fold comes from one of the folded
per-field results. -/
theorem collectEntries_err :
    ∀ (l : List (CField × Except CompileErr ZodSchema)) (e : CompileErr),
      collectEntries l = .error e → ∃ pr ∈ l, pr.2 = .error e := by
  intro l
  induction l with
  | nil => intro e h; simp [collectEntries] at h
  | cons hd tl ih =>
    intro e h
    obtain ⟨f, r⟩ := hd
    cases r with
    | error e' =>
      simp [collectEntries] at h
      exact ⟨(f, .error e'), by simp, by simp [h]⟩
    | ok s =>
      simp only [collectEntries] at h
      split at h
      next heq =>
        obtain ⟨pr, hmem, hpr⟩ := ih e (by simp at h; rw [heq]; simp [h])
        exact ⟨pr, by simp [hmem], hpr⟩
      next => simp at h

/-- Field compilation errors are exhaustively an invalid applied
pattern or fuel (host stack) exhaustion, whatever the field's kind or
constraints. -/
theorem createZodFieldFromConfig_err :
    ∀ (fuel : Nat) (f : CField) (allF : List CField) (e : CompileErr),
      createZodFieldFromConfig fuel f allF = .error e →
      e = .depth ∨ ∃ p, e = .badRegex p ∧ jsRegexParse p = none := by
  intro fuel
  induction fuel with
  | zero =>
    intro f allF e h
    simp [createZodFieldFromConfig] at h
    exact Or.inl h.symm
  | succ n ih =>
    intro f allF e h
    simp only [createZodFieldFromConfig] at h
    split at h
    · exact Or.inr (compileStringChecks_err _ _ h)
    · simp at h
    · simp at h
    · -- array
      split at h
      · split at h
        next heq =>
          simp only [Except.error.injEq] at h
          subst h
          obtain ⟨pr, hmem, hpr⟩ := collectEntries_err _ _ heq
          obtain ⟨cf, _, hcf⟩ := List.mem_map.mp hmem
          exact ih cf _ _ (by rw [← hcf] at hpr; exact hpr)
        next => simp at h
      · split at h
        next heq =>
          simp only [Except.error.injEq] at h
          subst h
          exact ih _ _ _ heq
        next => simp at h
    · -- enum
      split at h
      · split at h <;> simp at h
      · simp at h
    · -- object
      split at h
      · split at h
        next heq =>
          simp only [Except.error.injEq] at h
          subst h
          obtain ⟨pr, hmem, hpr⟩ := collectEntries_err _ _ heq
          obtain ⟨cf, _, hcf⟩ := List.mem_map.mp hmem
          exact ih cf _ _ (by rw [← hcf] at hpr; exact hpr)
        next => simp at h
      · simp at h
    · simp at h
    · -- literal
      split at h <;> simp at h
    · simp at h

/-- C2 amended: for a genuine sequence of descriptors — whatever the
kinds, recognized or not, and whatever the constraints — the only
compile-time failures are a string pattern constraint that is applied
and is not a valid regular expression (the `RegExp` constructor raises
at compile time, contrary to the claim's deferral to validate time) or
exhaustion of the host call stack through duplicated-identity cycles. -/
theorem c2_compile_raises_only_on_bad_pattern_or_stack :
    ∀ (fuel : Nat) (fields : List CField) (e : CompileErr),
      convertUIConfigToZodSchema fuel fields = .error e →
      e = .depth ∨ ∃ p, e = .badRegex p ∧ jsRegexParse p = none := by
  intro fuel fields e h
  cases fuel with
  | zero =>
    simp [convertUIConfigToZodSchema, createObjectFromFields] at h
    exact Or.inl h.symm
  | succ n =>
    simp only [convertUIConfigToZodSchema, createObjectFromFields] at h
    split at h
    next heq =>
      simp only [Except.error.injEq] at h
      subst h
      obtain ⟨pr, hmem, hpr⟩ := collectEntries_err _ _ heq
      obtain ⟨cf, _, hcf⟩ := List.mem_map.mp hmem
      exact createZodFieldFromConfig_err n cf _ _ (by rw [← hcf] at hpr; exact hpr)
    next => simp at h

/-- A string field whose `pattern` constraint is the invalid regular
expression `[`. -/
def exC2pat : CField :=
  { id := some 1, parentId := none, fieldName := "p", fieldType := "string"
    description := "", required := some true
    validation := .mk none none (some "[") false false none none false none none none none none none }

/-- Counterexample to C2 as stated: a well-formed one-descriptor
sequence on which compilation raises — the `RegExp` constructor throws
on the invalid pattern at compile time, not validate time. -/
theorem c2_counterexample :
    convertUIConfigToZodSchema 2 [exC2pat] = .error (.badRegex "[")
    ∧ jsRegexParse "[" = none :=
  ⟨rfl, rfl⟩

/-- Witness instantiating the amended C2 at the invalid-pattern
descriptor. -/
theorem c2_witness :
    CompileErr.badRegex "[" = .depth
    ∨ ∃ p, CompileErr.badRegex "[" = .badRegex p ∧ jsRegexParse p = none :=
  c2_compile_raises_only_on_bad_pattern_or_stack 2 [exC2pat] (.badRegex "[") rfl

/-! ### C1: Schema Compiler versus Preview Code Generator -/

/-- A canonical array field with no children, parameterized by the
item-type name, item bounds and nested item constraints. -/
def mkArrayFieldNC (it : Option String) (mi ma : Option Int) (iv : Option Validation) : UIField :=
  .mk 1 "f" "array" "" true
    (.mk none none none false false none none false mi ma it iv none none) []

/-- A canonical literal field with the given accepted value. -/
def mkLitField (v : JVal) : UIField :=
  .mk 1 "k" "literal" "" true
    (.mk none none none false false none none false none none none none none (some v)) []

/-- Hand a canonical field's attributes to the flat-form compiler. -/
def toCF (f : UIField) : CField :=
  { id := some f.id, parentId := none, fieldName := f.fieldName, fieldType := f.fieldType
    description := f.description, required := some f.required, validation := f.validation }

/-- An array bound as the compiler installs it: kept only when truthy. -/
def toBound (o : Option Int) : Option Int := if truthyN o then o else none

/-- The C1 array field with nested `itemValidation` `minLength=2`. -/
def exC1a : UIField :=
  mkArrayFieldNC (some "string") none none
    (some (.mk (some 2) none none false false none none false none none none none none none))

/-- The C1 array field with no `itemValidation`. -/
def exC1b : UIField := mkArrayFieldNC (some "string") none none none

/-- Counterexample to C1: two array descriptors differing only in
nested `itemValidation` render byte-identical preview text, yet their
compiled validators disagree on the instance `["a"]` — so the text
cannot express the itemValidation rule the validator applies; and for
`literal` with the number 42 the preview renders the string literal
'42' while the validator accepts the number 42 and rejects the string
"42". -/
theorem c1_counterexample :
    generateFieldTypeCode 2 exC1a = generateFieldTypeCode 2 exC1b
    ∧ createZodFieldFromConfig 2 (toCF exC1a) [] = .ok (.zarray (.zstring [.sMin 2]) none none)
    ∧ createZodFieldFromConfig 2 (toCF exC1b) [] = .ok (.zarray (.zstring []) none none)
    ∧ validateAt 2 [] (.zarray (.zstring [.sMin 2]) none none) (some (.vArr [.vStr "a"]))
        = [.tooSmall ["0"]]
    ∧ validateAt 2 [] (.zarray (.zstring []) none none) (some (.vArr [.vStr "a"])) = []
    ∧ generateFieldTypeCode 2 (mkLitField (.vNum 42)) = "z.literal(\x2742\x27)"
    ∧ createZodFieldFromConfig 2 (toCF (mkLitField (.vNum 42))) [] = .ok (.zliteral (.vNum 42))
    ∧ validateAt 1 [] (.zliteral (.vNum 42)) (some (.vNum 42)) = []
    ∧ validateAt 1 [] (.zliteral (.vNum 42)) (some (.vStr "42")) = [.invalidLiteral []] :=
  ⟨rfl, rfl, rfl, rfl, rfl, rfl, rfl, rfl, rfl⟩

/-- C1 amended: for an array field with no children the preview text is
independent of the nested `itemValidation` constraints (it renders only
the base kind named by `itemType`), while the compiled validator is the
synthetic item compilation — which carries `itemValidation` — wrapped
in the array rule; and for a literal field the preview always renders
the value coerced to a quoted string, while the compiler keeps the
value with its original type. -/
theorem c1_amended_preview_drops_item_validation_and_stringifies_literal :
    ∀ (fuel gfuel : Nat) (it : Option String) (mi ma : Option Int)
      (iv iv' : Option Validation) (v : JVal),
      generateFieldTypeCode (gfuel + 1) (mkArrayFieldNC it mi ma iv)
        = generateFieldTypeCode (gfuel + 1) (mkArrayFieldNC it mi ma iv')
      ∧ (itemField (mkArrayFieldNC it mi ma iv).validation).validation
          = iv.getD Validation.empty
      ∧ createZodFieldFromConfig (fuel + 1) (toCF (mkArrayFieldNC it mi ma iv)) []
          = Except.map (fun s => ZodSchema.zarray s (toBound mi) (toBound ma))
              (createZodFieldFromConfig fuel (itemField (mkArrayFieldNC it mi ma iv).validation) [])
      ∧ generateFieldTypeCode (gfuel + 1) (mkLitField v)
          = "z.literal(\x27" ++ jsToString v ++ "\x27)"
      ∧ createZodFieldFromConfig (fuel + 1) (toCF (mkLitField v)) [] = .ok (.zliteral v) := by
  intro fuel gfuel it mi ma iv iv' v
  refine ⟨rfl, rfl, ?_, rfl, rfl⟩
  cases h : createZodFieldFromConfig fuel
      (itemField (Validation.mk none none none false false none none false mi ma it iv none none)) [] with
  | error e =>
    simp [createZodFieldFromConfig, toCF, mkArrayFieldNC, h, Except.map,
      UIField.fieldType, UIField.validation, UIField.id, UIField.fieldName,
      UIField.description, UIField.required, Validation.minItems, Validation.maxItems]
  | ok s =>
    simp [createZodFieldFromConfig, toCF, mkArrayFieldNC, h, Except.map, toBound,
      UIField.fieldType, UIField.validation, UIField.id, UIField.fieldName,
      UIField.description, UIField.required, Validation.minItems, Validation.maxItems]

/-! ### C4: flat parent-referenced input under normalization -/

/-- A deterministic stand-in for the `Date.now() + Math.random()` id
generator (always truthy, as the host expression is). -/
def genSeq : Nat → Int := fun n => (n : Int) + 1

/-- A flat root descriptor `a` with identity 1. -/
def exC4a : RawField := .mk (some 1) (some "a") (some "object") none (some true) none none none

/-- A flat descriptor `b` carrying the parent reference 1. -/
def exC4b : RawField := .mk (some 2) (some "b") (some "string") none (some true) none none (some 1)

/-- Counterexample to C4: normalizing the flat list `[a, b@parent=1]`
leaves both elements as root fields with empty children — `b` is not
attached under `a`, and the parent reference is dropped — whereas the
claim requires exactly `[a]` as root with `b` as its child. -/
theorem c4_counterexample :
    ((normalizeList genSeq [exC4a, exC4b] 0).1).map UIField.fieldName = ["a", "b"]
    ∧ ((normalizeList genSeq [exC4a, exC4b] 0).1).map UIField.children = [[], []]
    ∧ ((normalizeList genSeq [exC4a, exC4b] 0).1).map UIField.fieldName ≠ ["a"] := by
  refine ⟨rfl, rfl, ?_⟩
  intro h
  simp [normalizeList, normalizeField, genId, exC4a, exC4b] at h

/-- The flat-form root descriptor `a` for the compiler side of C4. -/
def cfC4root : CField :=
  { id := some 1, parentId := none, fieldName := "a", fieldType := "object"
    description := "", required := some true, validation := Validation.empty }

/-- The flat-form child descriptor `b@parent=1` for the compiler side
of C4. -/
def cfC4child : CField :=
  { id := some 2, parentId := some 1, fieldName := "b", fieldType := "string"
    description := "", required := some true, validation := Validation.empty }

/-- C4 amended: normalization leaves a flat list flat — every element
becomes a root field with empty children, the parent reference
discarded — and it is the Schema Compiler that takes exactly the
elements lacking a parent reference as roots and attaches each
parent-referenced element under the descriptor whose identity it
names, as on the concrete pair `[a, b@parent=1]`. -/
theorem c4_amended_normalizer_flat_compiler_groups :
    (∀ (g : Nat → Int) (fs : List RawField) (c : Nat),
        (∀ f ∈ fs, (RawField.children f).isNone = true) →
        ((normalizeList g fs c).1).map UIField.children = List.replicate fs.length [])
    ∧ convertUIConfigToZodSchema 3 [cfC4root, cfC4child]
        = .ok (.zobject [("a", .zobject [("b", .zstring [])])]) := by
  constructor
  · intro g fs
    induction fs with
    | nil => intro c _; rfl
    | cons hd tl ih =>
      intro c hall
      obtain ⟨i, nm, ty, ds, rq, vl, ch, pid⟩ := hd
      have hch : ch = none := by
        have h1 := hall _ (List.mem_cons_self _ _)
        rw [← Option.isNone_iff_eq_none]
        simpa [RawField.children] using h1
      subst hch
      simp [normalizeList, normalizeField, UIField.children, List.replicate_succ,
        ih _ (fun f hf => hall f (List.mem_cons_of_mem _ hf))]
  · rfl

/-- A flat raw descriptor with no children attribute, for the C4
witness. -/
def exC4flat : RawField := .mk (some 7) (some "x") (some "string") none (some true) none none (some 3)

/-- Witness instantiating the amended C4 at a concrete flat list and at
the concrete compiler pair. -/
theorem c4_witness :
    ((normalizeList genSeq [exC4flat] 0).1).map UIField.children = List.replicate 1 []
    ∧ convertUIConfigToZodSchema 3 [cfC4root, cfC4child]
        = .ok (.zobject [("a", .zobject [("b", .zstring [])])]) := by
  refine ⟨?_, c4_amended_normalizer_flat_compiler_groups.2⟩
  exact c4_amended_normalizer_flat_compiler_groups.1 genSeq [exC4flat] 0
    (by intro f hf; rcases List.mem_singleton.mp hf with rfl; rfl)

/-- C5 amended: normalization fills the claimed defaults for absent
attributes (fresh id, empty name, string kind, required, empty
constraints, empty children) and keeps present ones — except that
presence of `id` and `kind` is tested by truthiness, so a present id of
0 is replaced by a fresh value and a present empty-string kind becomes
`string`, and present children are recursively normalized rather than
kept verbatim. -/
theorem c5_amended_defaults_with_truthiness :
    ∀ (g : Nat → Int) (f : RawField) (c : Nat),
      (f.id = none → ((normalizeField g f c).1).id = g c)
      ∧ (∀ i, f.id = some i → i ≠ 0 → ((normalizeField g f c).1).id = i)
      ∧ (f.id = some 0 → ((normalizeField g f c).1).id = g c)
      ∧ ((normalizeField g f c).1).fieldName = (f.fieldName).getD ""
      ∧ ((normalizeField g f c).1).fieldType = tyDefault f.fieldType
      ∧ (f.fieldType = none → tyDefault f.fieldType = "string")
      ∧ (f.fieldType = some "" → tyDefault f.fieldType = "string")
      ∧ (∀ s, f.fieldType = some s → s ≠ "" → tyDefault f.fieldType = s)
      ∧ ((normalizeField g f c).1).description = (f.description).getD ""
      ∧ ((normalizeField g f c).1).required = (f.required).getD true
      ∧ ((normalizeField g f c).1).validation = (f.validation).getD Validation.empty
      ∧ (f.children = none → ((normalizeField g f c).1).children = [])
      ∧ (∀ l, f.children = some l →
          ((normalizeField g f c).1).children = (normalizeList g l (genId g f.id c).2).1) := by
  intro g f c
  obtain ⟨i, nm, ty, ds, rq, vl, ch, pid⟩ := f
  refine ⟨?_, ?_, ?_, rfl, rfl, ?_, ?_, ?_, rfl, rfl, rfl, ?_, ?_⟩
  · intro h
    rw [RawField.id] at h
    subst h
    rfl
  · intro j hj hne
    rw [RawField.id] at hj
    subst hj
    simp [normalizeField, genId, UIField.id, hne]
  · intro h
    rw [RawField.id] at h
    subst h
    rfl
  · intro h
    rw [RawField.fieldType] at h
    subst h
    rfl
  · intro h
    rw [RawField.fieldType] at h
    subst h
    rfl
  · intro s hs hne
    rw [RawField.fieldType] at hs
    subst hs
    simp [tyDefault, RawField.fieldType, hne]
  · intro h
    rw [RawField.children] at h
    subst h
    rfl
  · intro l h
    rw [RawField.children] at h
    subst h
    rfl

/-- A raw descriptor carrying the present but falsy id 0. -/
def exC5idZero : RawField := .mk (some 0) none none none none none none none

/-- Counterexample to C5 as stated: the present id 0 is not kept
unchanged — normalization replaces it with a freshly generated value. -/
theorem c5_counterexample :
    ((normalizeField genSeq exC5idZero 0).1).id = 1
    ∧ ((normalizeField genSeq exC5idZero 0).1).id ≠ 0 := by
  exact ⟨rfl, by decide⟩

/-- A raw descriptor with every attribute absent, for the C5 witness. -/
def exC5allNone : RawField := .mk none none none none none none none none

/-- Witness instantiating the amended C5 at the all-absent raw
descriptor. -/
theorem c5_witness :
    ((normalizeField genSeq exC5allNone 0).1).id = genSeq 0
    ∧ ((normalizeField genSeq exC5allNone 0).1).fieldName = ""
    ∧ ((normalizeField genSeq exC5allNone 0).1).fieldType = "string"
    ∧ ((normalizeField genSeq exC5allNone 0).1).required = true
    ∧ ((normalizeField genSeq exC5allNone 0).1).validation = Validation.empty
    ∧ ((normalizeField genSeq exC5allNone 0).1).children = [] := by
  obtain ⟨h1, _, _, h4, h5, h6, _, _, _, h10, h11, h12, _⟩ :=
    c5_amended_defaults_with_truthiness genSeq exC5allNone 0
  exact ⟨h1 rfl, h4, by rw [h5]; exact h6 rfl, h10, h11, h12 rfl⟩

/-- The id normalization yields a truthy id whenever the generator
does. -/
theorem genId_ne_zero (g : Nat → Int) (hg : ∀ n, g n ≠ 0) (i : Option Int) (c : Nat) :
    (genId g i c).1 ≠ 0 := by
  cases i with
  | none => exact hg c
  | some x =>
    by_cases hx : x = 0
    · subst hx
      simp [genId]
      exact hg c
    · simp [genId, hx]

/-- The kind default never yields the empty string. -/
theorem tyDefault_ne_empty (ty : Option String) : tyDefault ty ≠ "" := by
  cases ty with
  | none => simp [tyDefault]
  | some s =>
    by_cases hs : s = ""
    · subst hs
      simp [tyDefault]
    · simp [tyDefault, hs]

/-- Boolean conjunction introduction used by the canonicity lemmas. -/
theorem bool_and_intro {a b : Bool} (ha : a = true) (hb : b = true) : (a && b) = true := by
  simp [ha, hb]

/-- Boolean conjunction elimination used by the canonicity lemmas. -/
theorem bool_and_elim {a b : Bool} (h : (a && b) = true) : a = true ∧ b = true := by
  simp_all

mutual

/-- Normalization output satisfies the canonical-shape invariant. -/
theorem normalizeField_canon (g : Nat → Int) (hg : ∀ n, g n ≠ 0) :
    ∀ (f : RawField) (c : Nat), canonB (normalizeField g f c).1 = true
  | .mk i nm ty ds rq vl ch pid, c => by
    cases ch with
    | none =>
      exact bool_and_intro (bool_and_intro (bne_iff_ne.mpr (genId_ne_zero g hg i c))
        (bne_iff_ne.mpr (tyDefault_ne_empty ty))) rfl
    | some l =>
      exact bool_and_intro (bool_and_intro (bne_iff_ne.mpr (genId_ne_zero g hg i c))
        (bne_iff_ne.mpr (tyDefault_ne_empty ty)))
        (normalizeList_canon g hg l (genId g i c).2)
termination_by f _ => sizeOf f

/-- List version of `normalizeField_canon`. -/
theorem normalizeList_canon (g : Nat → Int) (hg : ∀ n, g n ≠ 0) :
    ∀ (l : List RawField) (c : Nat), canonListB (normalizeList g l c).1 = true
  | [], _ => rfl
  | f :: rest, c =>
    bool_and_intro (normalizeField_canon g hg f c)
      (normalizeList_canon g hg rest (normalizeField g f c).2)
termination_by l _ => sizeOf l

end

mutual

/-- Re-normalizing a canonical field is the identity and consumes no
fresh ids. -/
theorem normalizeField_second (g2 : Nat → Int) :
    ∀ (fld : UIField) (c : Nat), canonB fld = true →
      normalizeField g2 (toRaw fld) c = (fld, c)
  | .mk i nm ty ds rq vl ch, c => by
    intro h
    have h3 : (i ≠ 0 ∧ ty ≠ "") ∧ canonListB ch = true := by
      have h2 : ((i != 0) && (ty != "") && canonListB ch) = true := h
      simpa [Bool.and_eq_true, bne_iff_ne, and_assoc] using h2
    obtain ⟨⟨hi, hty⟩, hch⟩ := h3
    have hgen : genId g2 (some i) c = (i, c) := by simp [genId, hi]
    have htyd : tyDefault (some ty) = ty := by simp [tyDefault, hty]
    have hkids := normalizeList_second g2 ch c hch
    show (UIField.mk (genId g2 (some i) c).1 nm (tyDefault (some ty)) ds rq vl
        (normalizeList g2 (toRaws ch) (genId g2 (some i) c).2).1,
      (normalizeList g2 (toRaws ch) (genId g2 (some i) c).2).2)
      = (UIField.mk i nm ty ds rq vl ch, c)
    rw [hgen, htyd]
    simp [hkids]
termination_by fld _ => sizeOf fld

/-- List version of `normalizeField_second`. -/
theorem normalizeList_second (g2 : Nat → Int) :
    ∀ (l : List UIField) (c : Nat), canonListB l = true →
      normalizeList g2 (toRaws l) c = (l, c)
  | [], _ => by intro _; rfl
  | f :: rest, c => by
    intro h
    have h2 : canonB f = true ∧ canonListB rest = true := bool_and_elim h
    have hf := normalizeField_second g2 f c h2.1
    have hr := normalizeList_second g2 rest c h2.2
    show ((normalizeField g2 (toRaw f) c).1 :: (normalizeList g2 (toRaws rest)
        (normalizeField g2 (toRaw f) c).2).1,
      (normalizeList g2 (toRaws rest) (normalizeField g2 (toRaw f) c).2).2)
      = (f :: rest, c)
    rw [hf]
    simp [hr]
termination_by l _ => sizeOf l

end

/-- C8: normalization is idempotent — re-normalizing normalization's
output (re-embedded as raw input) changes nothing, for any input and
any generators, given that the id generator never yields the falsy 0
(as `Date.now() + Math.random()` never does). -/
theorem c8_normalize_idempotent :
    ∀ (g g2 : Nat → Int) (fs : List RawField) (c c2 : Nat),
      (∀ n, g n ≠ 0) →
      normalizeList g2 (toRaws (normalizeList g fs c).1) c2 = ((normalizeList g fs c).1, c2) := by
  intro g g2 fs c c2 hg
  exact normalizeList_second g2 _ c2 (normalizeList_canon g hg fs c)

/-- A raw descriptor mixing present and absent attributes, for the C8
witness. -/
def exC8raw : RawField :=
  .mk none (some "t") (some "string") none (some false) none (some []) none

/-- Witness instantiating C8 at a concrete list and generator. -/
theorem c8_witness :
    normalizeList genSeq (toRaws (normalizeList genSeq [exC8raw] 0).1) 0
      = ((normalizeList genSeq [exC8raw] 0).1, 0) :=
  c8_normalize_idempotent genSeq genSeq [exC8raw] 0 0 (fun n => by simp [genSeq]; omega)
